import Mathlib

/-!
Shallow embedding of `tensorflow_tts/processor/base_processorv2.py`
(class `ExamplePrepro`) and proofs about the claims of its specification.

Python dictionaries are modelled as association lists whose insertion
operation updates in place when the key is present and appends otherwise,
exactly matching the ordering semantics of Python 3.7+ dicts.  Python
exceptions are modelled with `Except` over an explicit error type.
-/

namespace BaseProcessorV2

/-- Kinds of Python exceptions raised by the embedded code.  `keyError` and
`indexError` are the two LookupError subclasses; `valueError` models
ValueError; `dataProcessorError` models the module exception
`DataProcessorError`; `ioError` models missing files; `typeError` models
TypeError raised by subscripting a non-subscriptable value. -/
inductive PyErr where
  | keyError
  | indexError
  | valueError
  | typeError
  | dataProcessorError
  | ioError
deriving DecidableEq, Repr

/-- A Python dict key as used by `speakers_map`: speaker names are strings,
but `get_speaker_name` indexes the dict with an integer, so both kinds of
keys must be representable.  Python equality never identifies an int with a
str, which the derived `DecidableEq` reflects. -/
inductive PyKey where
  | str (s : String)
  | int (n : Nat)
deriving DecidableEq, Repr

/-- A Python runtime value, as far as the arguments and results of
`add_symbol` / `convert_symbols_to_ids` / `__getattr__` need. -/
inductive PyObj where
  | str (s : String)
  | int (n : Nat)
  | list (xs : List PyObj)

/-- Equality of `Except` results is decidable, so concrete runs of the
embedded code can be checked by `decide`. -/
instance {ε α : Type} [DecidableEq ε] [DecidableEq α] : DecidableEq (Except ε α) := fun x y => by
  cases x <;> cases y
  · rename_i a b
    exact if h : a = b then .isTrue (by rw [h]) else .isFalse (fun hc => h (by injection hc))
  · exact .isFalse (fun hc => Except.noConfusion hc)
  · exact .isFalse (fun hc => Except.noConfusion hc)
  · rename_i a b
    exact if h : a = b then .isTrue (by rw [h]) else .isFalse (fun hc => h (by injection hc))

/-- Python dict lookup `d[k]` on an association list (first match; keys are
unique in every dict built by the embedded code). -/
def dictLookup {κ ν : Type} [DecidableEq κ] : List (κ × ν) → κ → Option ν
  | [], _ => none
  | (k, v) :: rest, k2 => if k2 = k then some v else dictLookup rest k2

/-- Python dict assignment `d[k] = v`: update in place when the key exists
(keeping its position), append otherwise. -/
def dictInsert {κ ν : Type} [DecidableEq κ] : List (κ × ν) → κ → ν → List (κ × ν)
  | [], k2, v2 => [(k2, v2)]
  | (k, v) :: rest, k2, v2 =>
      if k2 = k then (k2, v2) :: rest else (k, v) :: dictInsert rest k2 v2

/-- The keys of a dict, in insertion order. -/
def dictKeys {κ ν : Type} (m : List (κ × ν)) : List κ := m.map Prod.fst

/-- Python list indexing `l[i]` for a non-negative index: `none` models an
IndexError. -/
def listGet {α : Type} : List α → Nat → Option α
  | [], _ => none
  | a :: _, 0 => some a
  | _ :: rest, n + 1 => listGet rest n

/-- Python `enumerate(l)` starting at index `i`. -/
def pyEnumFrom {α : Type} (i : Nat) : List α → List (Nat × α)
  | [] => []
  | a :: rest => (i, a) :: pyEnumFrom (i + 1) rest

/-- Drop leading whitespace characters. -/
def dropLeadingWs : List Char → List Char
  | [] => []
  | c :: rest => if c.isWhitespace then dropLeadingWs rest else c :: rest

/-- Python `str.strip()` with no argument: remove leading and trailing
whitespace. -/
def pyStrip (s : String) : String :=
  ⟨(dropLeadingWs ((dropLeadingWs s.data).reverse)).reverse⟩

/-- Worker for `pySplit`: scan left to right for the next non-overlapping
occurrence of the (non-empty) separator; `acc` holds the characters of the
piece being built, in reverse.  `fuel` only bounds the recursion and is
never exhausted when it starts at the length of the scanned list. -/
def pySplitAux (sep : List Char) : Nat → List Char → List Char → List (List Char)
  | _, [], acc => [acc.reverse]
  | 0, l, acc => [acc.reverse ++ l]
  | fuel + 1, c :: rest, acc =>
    if sep.isPrefixOf (c :: rest) then
      acc.reverse :: pySplitAux sep fuel (List.drop (sep.length - 1) rest) []
    else
      pySplitAux sep fuel rest (c :: acc)

/-- Python `s.split(sep)` for a non-empty separator `sep` (Python raises
ValueError on an empty separator; callers guard that case). -/
def pySplit (s sep : String) : List String :=
  (pySplitAux sep.data s.data.length s.data []).map (fun cs => ⟨cs⟩)

/-- Python `s[-n:]`, the last `n` characters of `s` (all of `s` when it is
shorter than `n`). -/
def pyTakeRight (s : String) (n : Nat) : String :=
  ⟨((s.data.reverse.take n).reverse)⟩

/-- Class attribute `extra_tokens` of `ExamplePrepro`, in source order. -/
def extra_tokens : List (String × String) :=
  [("unk", "[UNK]"), ("pad", "[PAD]"), ("eos", "[EOS]"), ("bos", "[BOS]")]

/-- `list(self.extra_tokens.values())`. -/
def extra_token_values : List String := extra_tokens.map Prod.snd

/-- Class attribute `positions`: field positions after splitting a manifest
line (`file=0, text=1, speaker_name=2` by default). -/
structure Positions where
  file : Nat := 0
  text : Nat := 1
  speaker_name : Nat := 2
deriving DecidableEq, Repr

/-- `os.path.join(a, b)` for POSIX paths, restricted to the two-argument
form the source uses. -/
def osPathJoin (a b : String) : String :=
  if ['/'].isPrefixOf b.data then b
  else if a = "" then b
  else if ['/'].isSuffixOf a.data then a ++ b
  else a ++ "/" ++ b

/-- One parsed item: the source appends the Python list
`[text, wav_path, speaker_name]`, so `speaker_name` is the `i[-1]` used by
`create_speaker_map`. -/
structure Item where
  text : String
  wav_path : String
  speaker_name : String
deriving DecidableEq, Repr

/-- Construction-time configuration of `ExamplePrepro` (the dataclass
fields that the constructor reads). -/
structure Config where
  root_dir : String
  symbols : List String := []
  speakers_map : List (PyKey × Nat) := []
  delimiter : String := "|"
  positions : Positions := {}
  f_extension : String := ".wav"
  save_mapper : Bool := false
  load_mapper : Bool := false
deriving DecidableEq, Repr

/-- The body of the loop of `create_items` for one manifest line: strip the
line, split on the delimiter, resolve the wav path against `root_dir`,
append the audio extension when the last `len(extension)` characters differ
from it, and read the text and speaker fields.  A missing field position is
an IndexError, exactly as in Python. -/
def parseLine (cfg : Config) (line : String) : Except PyErr Item :=
  if cfg.delimiter = "" then .error .valueError
  else
  let parts := pySplit (pyStrip line) cfg.delimiter
  match listGet parts cfg.positions.file with
  | none => .error .indexError
  | some p0 =>
    let wav1 := osPathJoin cfg.root_dir p0
    let wav := if pyTakeRight wav1 cfg.f_extension.length ≠ cfg.f_extension
               then wav1 ++ cfg.f_extension else wav1
    match listGet parts cfg.positions.text with
    | none => .error .indexError
    | some txt =>
      match listGet parts cfg.positions.speaker_name with
      | none => .error .indexError
      | some sp => .ok ⟨txt, wav, sp⟩

/-- `create_items`: parse every manifest line in file order; the first
exception aborts construction. -/
def create_items (cfg : Config) : List String → Except PyErr (List Item)
  | [] => .ok []
  | line :: rest =>
    match parseLine cfg line with
    | .error e => .error e
    | .ok it =>
      match create_items cfg rest with
      | .error e => .error e
      | .ok its => .ok (it :: its)

/-- The loop of `create_speaker_map`: `sp_id` starts at 0 regardless of the
contents of the initial `speakers_map`, and is incremented only when a new
speaker name is inserted. -/
def create_speaker_map_aux (m : List (PyKey × Nat)) (sp_id : Nat) :
    List Item → List (PyKey × Nat)
  | [] => m
  | i :: rest =>
    if (dictLookup m (.str i.speaker_name)).isSome then
      create_speaker_map_aux m sp_id rest
    else
      create_speaker_map_aux (dictInsert m (.str i.speaker_name) sp_id) (sp_id + 1) rest

/-- `create_speaker_map`, starting from the dataclass field
`speakers_map`. -/
def create_speaker_map (m : List (PyKey × Nat)) (items : List Item) :
    List (PyKey × Nat) :=
  create_speaker_map_aux m 0 items

/-- `self.symbols + list(self.extra_tokens.values())` from
`create_symbols`. -/
def symbols_full (base : List String) : List String := base ++ extra_token_values

/-- The dict comprehension building symbol_to_id in the source. -/
def build_symbol_to_id (syms : List String) : List (String × Nat) :=
  (pyEnumFrom 0 syms).foldl (fun d p => dictInsert d p.2 p.1) []

/-- The dict comprehension building id_to_symbol in the source. -/
def build_id_to_symbol (syms : List String) : List (Nat × String) :=
  (pyEnumFrom 0 syms).foldl (fun d p => dictInsert d p.1 p.2) []

/-- The state of a constructed `ExamplePrepro` instance: the fields written
by `__post_init__`.  `reverse_speaker` is `none` on the `load_mapper` path,
where the attribute is never assigned. -/
structure Prepro where
  symbols : List String
  speakers_map : List (PyKey × Nat)
  items : List Item
  symbol_to_id : List (String × Nat)
  id_to_symbol : List (Nat × String)
  reverse_speaker : Option (List (Nat × PyKey))
deriving DecidableEq, Repr

/-- `get_speaker_id`: `self.speakers_map[name]`; a missing name is a
KeyError. -/
def get_speaker_id (st : Prepro) (name : String) : Except PyErr Nat :=
  match dictLookup st.speakers_map (.str name) with
  | some i => .ok i
  | none => .error .keyError

/-- `get_speaker_name`: the source reads `self.speakers_map[speaker_id]`,
indexing the name-to-id dict with an integer key (it does not use
`reverse_speaker`).  The value found, if any, would be the dict value,
an integer. -/
def get_speaker_name (st : Prepro) (speaker_id : Nat) : Except PyErr Nat :=
  match dictLookup st.speakers_map (.int speaker_id) with
  | some v => .ok v
  | none => .error .keyError

/-- `__getattr__(self, name)`: when `"_id" in name`, look up
`extra_tokens[name.split("_id")[0]]` and then its id in `symbol_to_id`;
otherwise return `extra_tokens[name]`.  Both dict accesses raise KeyError
on a missing key.  The substring test and the first piece of the split are
expressed through `pySplit`, whose semantics on a non-empty separator
agree with Python `str.split`. -/
def getattr_fallback (st : Prepro) (name : String) : Except PyErr PyObj :=
  if 1 < (pySplit name "_id").length then
    match dictLookup extra_tokens ((pySplit name "_id").headD "") with
    | none => .error .keyError
    | some tok =>
      match dictLookup st.symbol_to_id tok with
      | none => .error .keyError
      | some i => .ok (.int i)
  else
    match dictLookup extra_tokens name with
    | none => .error .keyError
    | some v => .ok (.str v)

/-- Subscripting a Python value with a string key, as in
`self._symbol_to_id[s]`.  The only values `__getattr__` can return are
strings and ints, and subscripting either with a string key is a
TypeError, as is subscripting a list. -/
def pySubscriptStr (v : PyObj) (_key : String) : Except PyErr PyObj :=
  match v with
  | .str _ => .error .typeError
  | .int _ => .error .typeError
  | .list _ => .error .typeError

mutual

/-- `add_symbol`: a known string is a no-op; a new string is appended to
`symbols` and both dicts, with id `len(self.symbol_to_id)` read before the
insertion; a list recurses element-wise; anything else is a ValueError. -/
def add_symbol (st : Prepro) : PyObj → Except PyErr Prepro
  | .str s =>
    if (dictLookup st.symbol_to_id s).isSome then .ok st
    else
      let symbol_id := st.symbol_to_id.length
      .ok { st with
            symbols := st.symbols ++ [s],
            symbol_to_id := dictInsert st.symbol_to_id s symbol_id,
            id_to_symbol := dictInsert st.id_to_symbol symbol_id s }
  | .list xs => add_symbol_list st xs
  | .int _ => .error .valueError

/-- The `for i in symbol: self.add_symbol(i)` loop of `add_symbol`. -/
def add_symbol_list (st : Prepro) : List PyObj → Except PyErr Prepro
  | [] => .ok st
  | x :: rest =>
    match add_symbol st x with
    | .error e => .error e
    | .ok st2 => add_symbol_list st2 rest

end

/-- The loop of `convert_symbols_to_ids` over a list argument: each string
element evaluates `self._symbol_to_id` — an attribute that does not exist,
so Python dispatches to `__getattr__` with the name `"_symbol_to_id"` —
and subscripts the result; a non-string element is a ValueError. -/
def convert_symbols_loop (st : Prepro) : List PyObj → Except PyErr (List PyObj)
  | [] => .ok []
  | .str s :: rest =>
    match getattr_fallback st "_symbol_to_id" with
    | .error e => .error e
    | .ok v =>
      match pySubscriptStr v s with
      | .error e => .error e
      | .ok x =>
        match convert_symbols_loop st rest with
        | .error e => .error e
        | .ok xs => .ok (x :: xs)
  | .int _ :: _ => .error .valueError
  | .list _ :: _ => .error .valueError

/-- `convert_symbols_to_ids`: a bare string appends
`self._symbol_to_id[symbols]` to the sequence; a list loops element-wise;
anything else is a ValueError. -/
def convert_symbols_to_ids (st : Prepro) : PyObj → Except PyErr (List PyObj)
  | .str s =>
    match getattr_fallback st "_symbol_to_id" with
    | .error e => .error e
    | .ok v =>
      match pySubscriptStr v s with
      | .error e => .error e
      | .ok x => .ok [x]
  | .list xs => convert_symbols_loop st xs
  | .int _ => .error .valueError

/-- The character of one decimal digit. -/
def digitChar (d : Nat) : Char :=
  match d with
  | 0 => '0' | 1 => '1' | 2 => '2' | 3 => '3' | 4 => '4'
  | 5 => '5' | 6 => '6' | 7 => '7' | 8 => '8' | _ => '9'

/-- Worker for `decimalChars`; `fuel` only bounds the recursion and is
never exhausted when it starts above the printed number. -/
def decimalCharsAux : Nat → Nat → List Char
  | 0, _ => []
  | fuel + 1, n =>
    if n < 10 then [digitChar n]
    else decimalCharsAux fuel (n / 10) ++ [digitChar (n % 10)]

/-- The decimal digit characters of a natural number, most significant
first.  Models the stringification that `json.dump` applies to an integer
dict key. -/
def decimalChars (n : Nat) : List Char := decimalCharsAux (n + 1) n

/-- The JSON object key produced by `json.dump` for the integer dict key
`n` of `id_to_symbol`. -/
def jsonIntKey (n : Nat) : String := ⟨decimalChars n⟩

/-- Python `int(s)` as applied by `__load_mapper` to the keys read back
from `mapper.json`, modelled on strings of decimal digits (the only shape
`json.dump` produces for a non-negative integer key); any other string is
a ValueError. -/
def pyIntParse (s : String) : Option Nat :=
  if s.data = [] then none
  else if s.data.all (fun c => c.isDigit) then
    some (s.data.foldl (fun acc c => acc * 10 + (c.toNat - 48)) 0)
  else none

/-- The JSON key of a `speakers_map` dict key: strings stay themselves,
integer keys are stringified by `json.dump`. -/
def pyKeyToJsonKey : PyKey → String
  | .str s => s
  | .int n => jsonIntKey n

/-- The content of `mapper.json`: JSON object keys are strings, so the
integer keys of `id_to_symbol` appear stringified. -/
structure MapperJson where
  symbol_to_id : List (String × Nat)
  id_to_symbol : List (String × String)
  speakers_map : List (String × Nat)
deriving DecidableEq, Repr

/-- `__save_mapper`: serialize the three dicts to `mapper.json`. -/
def save_mapper_json (st : Prepro) : MapperJson :=
  { symbol_to_id := st.symbol_to_id,
    id_to_symbol := st.id_to_symbol.map (fun p => (jsonIntKey p.1, p.2)),
    speakers_map := st.speakers_map.map (fun p => (pyKeyToJsonKey p.1, p.2)) }

/-- The dict comprehension `{int(k): v for k, v in data["id_to_symbol"].items()}`
of `__load_mapper`; `int` raises ValueError on a non-numeric key. -/
def parse_id_to_symbol : List (String × String) → Except PyErr (List (Nat × String))
  | [] => .ok []
  | (k, v) :: rest =>
    match pyIntParse k with
    | none => .error .valueError
    | some n =>
      match parse_id_to_symbol rest with
      | .error e => .error e
      | .ok tail => .ok ((n, v) :: tail)

/-- `__load_mapper`: populate `speakers_map`, `symbol_to_id` and
`id_to_symbol` from the snapshot; `items` keeps its dataclass default `[]`
and `reverse_speaker` is never assigned on this path. -/
def load_mapper_json (cfg : Config) (mj : MapperJson) : Except PyErr Prepro :=
  match parse_id_to_symbol mj.id_to_symbol with
  | .error e => .error e
  | .ok i2s =>
    .ok { symbols := cfg.symbols,
          speakers_map := mj.speakers_map.map (fun p => (PyKey.str p.1, p.2)),
          items := [],
          symbol_to_id := mj.symbol_to_id,
          id_to_symbol := i2s,
          reverse_speaker := none }

/-- The state built by lines 42-45 of `__post_init__` once the items are
parsed: `create_speaker_map`, the `reverse_speaker` dict comprehension, and
`create_symbols`. -/
def build_state (cfg : Config) (items : List Item) : Prepro :=
  let sm := create_speaker_map cfg.speakers_map items
  let syms := symbols_full cfg.symbols
  { symbols := syms,
    speakers_map := sm,
    items := items,
    symbol_to_id := build_symbol_to_id syms,
    id_to_symbol := build_id_to_symbol syms,
    reverse_speaker := some (sm.foldl (fun d p => dictInsert d p.2 p.1) []) }

/-- `__post_init__`: the whole construction protocol.  `manifest` is the
line list of the manifest file and `mapper_file` the content of
`mapper.json` when that file exists; the second component of the result is
the snapshot written by `__save_mapper`, when any. -/
def post_init (cfg : Config) (manifest : List String)
    (mapper_file : Option MapperJson) :
    Except PyErr (Prepro × Option MapperJson) :=
  if cfg.load_mapper then
    match mapper_file with
    | none => .error .ioError
    | some mj =>
      match load_mapper_json cfg mj with
      | .error e => .error e
      | .ok st => .ok (st, none)
  else if cfg.symbols.length < 1 then .error .dataProcessorError
  else
    match create_items cfg manifest with
    | .error e => .error e
    | .ok items =>
      let st := build_state cfg items
      if cfg.save_mapper then .ok (st, some (save_mapper_json st))
      else .ok (st, none)

/-- A concrete configuration used by several concrete checks below:
`root_dir="/data"`, base symbols `["a", "b"]`, all other fields at their
dataclass defaults. -/
def demo_cfg : Config := { root_dir := "/data", symbols := ["a", "b"] }

/-- The instance state `post_init` builds from `demo_cfg` and the one-line
manifest `"w1|a|spk1"` (checked below in `demo_state_eq`). -/
def demo_state : Prepro :=
  { symbols := ["a", "b", "[UNK]", "[PAD]", "[EOS]", "[BOS]"],
    speakers_map := [(.str "spk1", 0)],
    items := [⟨"a", "/data/w1.wav", "spk1"⟩],
    symbol_to_id := [("a", 0), ("b", 1), ("[UNK]", 2), ("[PAD]", 3), ("[EOS]", 4), ("[BOS]", 5)],
    id_to_symbol := [(0, "a"), (1, "b"), (2, "[UNK]"), (3, "[PAD]"), (4, "[EOS]"), (5, "[BOS]")],
    reverse_speaker := some [(0, .str "spk1")] }

/-- `demo_state` really is the result of construction on the one-line
manifest. -/
theorem demo_state_eq : post_init demo_cfg ["w1|a|spk1"] none = .ok (demo_state, none) := by
  decide

/-! ### Association-list (Python dict) lemmas -/

theorem dictLookup_eq_none_iff {κ ν : Type} [DecidableEq κ] (m : List (κ × ν)) (k : κ) :
    dictLookup m k = none ↔ k ∉ dictKeys m := by
  induction m with
  | nil => simp [dictLookup, dictKeys]
  | cons p rest ih =>
    obtain ⟨k1, v1⟩ := p
    by_cases h : k = k1
    · simp [dictLookup, dictKeys, h]
    · simp only [dictLookup, dictKeys, if_neg h] at ih ⊢
      simp [ih, h]

theorem dictLookup_isSome_iff {κ ν : Type} [DecidableEq κ] (m : List (κ × ν)) (k : κ) :
    (dictLookup m k).isSome = true ↔ k ∈ dictKeys m := by
  rw [Option.isSome_iff_ne_none]
  constructor
  · intro h
    by_contra hmem
    exact h ((dictLookup_eq_none_iff m k).2 hmem)
  · intro h hnone
    exact ((dictLookup_eq_none_iff m k).1 hnone) h

theorem dictInsert_of_not_mem {κ ν : Type} [DecidableEq κ] {m : List (κ × ν)} {k : κ}
    (v : ν) (h : k ∉ dictKeys m) : dictInsert m k v = m ++ [(k, v)] := by
  induction m with
  | nil => rfl
  | cons p rest ih =>
    obtain ⟨k1, v1⟩ := p
    simp [dictKeys] at h
    simp [dictInsert, h.1, ih (by simp [dictKeys, h.2])]

theorem length_dictInsert_of_not_mem {κ ν : Type} [DecidableEq κ] {m : List (κ × ν)} {k : κ}
    (v : ν) (h : k ∉ dictKeys m) : (dictInsert m k v).length = m.length + 1 := by
  rw [dictInsert_of_not_mem v h]
  simp

theorem dictLookup_dictInsert_self {κ ν : Type} [DecidableEq κ] (m : List (κ × ν)) (k : κ) (v : ν) :
    dictLookup (dictInsert m k v) k = some v := by
  induction m with
  | nil => simp [dictInsert, dictLookup]
  | cons p rest ih =>
    obtain ⟨k1, v1⟩ := p
    by_cases h : k = k1 <;> simp [dictInsert, dictLookup, h, ih]

theorem dictKeys_nil {κ ν : Type} : dictKeys ([] : List (κ × ν)) = [] := rfl

theorem dictKeys_cons {κ ν : Type} (k : κ) (v : ν) (m : List (κ × ν)) :
    dictKeys ((k, v) :: m) = k :: dictKeys m := rfl

theorem dictKeys_append {κ ν : Type} (m1 m2 : List (κ × ν)) :
    dictKeys (m1 ++ m2) = dictKeys m1 ++ dictKeys m2 := by
  simp [dictKeys]

theorem mem_dictKeys_of_mem {κ ν : Type} {m : List (κ × ν)} {k : κ} {v : ν}
    (h : (k, v) ∈ m) : k ∈ dictKeys m :=
  List.mem_map_of_mem Prod.fst h

theorem mem_dictKeys_dictInsert {κ ν : Type} [DecidableEq κ] {m : List (κ × ν)} {k x : κ} {v : ν}
    (h : x ∈ dictKeys (dictInsert m k v)) : x = k ∨ x ∈ dictKeys m := by
  induction m with
  | nil =>
    simp only [dictInsert, dictKeys_cons, dictKeys_nil] at h
    exact Or.inl (by simpa using h)
  | cons p rest ih =>
    obtain ⟨k1, v1⟩ := p
    by_cases hk : k = k1
    · simp only [dictInsert, if_pos hk, dictKeys_cons] at h
      rcases List.mem_cons.1 h with h | h
      · exact Or.inl h
      · exact Or.inr (by rw [dictKeys_cons]; exact List.mem_cons.2 (Or.inr h))
    · simp only [dictInsert, if_neg hk, dictKeys_cons] at h
      rcases List.mem_cons.1 h with h | h
      · exact Or.inr (by rw [dictKeys_cons]; exact List.mem_cons.2 (Or.inl h))
      · rcases ih h with h2 | h2
        · exact Or.inl h2
        · exact Or.inr (by rw [dictKeys_cons]; exact List.mem_cons.2 (Or.inr h2))

theorem dictLookup_eq_some_iff {κ ν : Type} [DecidableEq κ] {m : List (κ × ν)}
    (hnd : (dictKeys m).Nodup) (k : κ) (v : ν) :
    dictLookup m k = some v ↔ (k, v) ∈ m := by
  induction m with
  | nil => simp [dictLookup]
  | cons p rest ih =>
    obtain ⟨k1, v1⟩ := p
    rw [dictKeys_cons, List.nodup_cons] at hnd
    by_cases h : k = k1
    · subst h
      rw [dictLookup, if_pos rfl]
      constructor
      · intro h2
        injection h2 with h3
        exact List.mem_cons.2 (Or.inl (by rw [h3]))
      · intro h2
        rcases List.mem_cons.1 h2 with h2 | h2
        · have hv : v = v1 := (Prod.mk.injEq _ _ _ _ ▸ congrArg id h2).2
          rw [hv]
        · exact absurd (mem_dictKeys_of_mem h2) hnd.1
    · rw [dictLookup, if_neg h, ih hnd.2]
      constructor
      · intro h2
        exact List.mem_cons.2 (Or.inr h2)
      · intro h2
        rcases List.mem_cons.1 h2 with h2 | h2
        · exact absurd (congrArg Prod.fst h2) h
        · exact h2

/-- Folding Python dict assignments of pairwise-distinct keys, all fresh
for the accumulator, appends the pairs in order. -/
theorem foldl_dictInsert_of_nodup {κ ν : Type} [DecidableEq κ] (ps : List (κ × ν)) :
    ∀ acc : List (κ × ν), (dictKeys acc ++ ps.map Prod.fst).Nodup →
      ps.foldl (fun d p => dictInsert d p.1 p.2) acc = acc ++ ps := by
  induction ps with
  | nil => simp
  | cons p rest ih =>
    intro acc hnd
    obtain ⟨k, v⟩ := p
    have hk : k ∉ dictKeys acc := by
      intro hmem
      exact (List.disjoint_of_nodup_append hnd) hmem (by simp)
    have step : dictInsert acc k v = acc ++ [(k, v)] := dictInsert_of_not_mem v hk
    have hnd2 : (dictKeys (acc ++ [(k, v)]) ++ rest.map Prod.fst).Nodup := by
      simp only [dictKeys, List.map_append, List.map] at hnd ⊢
      simpa [List.append_assoc] using hnd
    calc ((k, v) :: rest).foldl (fun d p => dictInsert d p.1 p.2) acc
        = rest.foldl (fun d p => dictInsert d p.1 p.2) (acc ++ [(k, v)]) := by
          simp [List.foldl_cons, step]
      _ = (acc ++ [(k, v)]) ++ rest := ih (acc ++ [(k, v)]) hnd2
      _ = acc ++ (k, v) :: rest := by simp

/-! ### Lemmas about `pyEnumFrom` -/

theorem pyEnumFrom_map_snd {α : Type} (l : List α) : ∀ i, (pyEnumFrom i l).map Prod.snd = l := by
  induction l with
  | nil => intro i; rfl
  | cons a rest ih => intro i; simp [pyEnumFrom, ih]

theorem pyEnumFrom_length {α : Type} (l : List α) : ∀ i, (pyEnumFrom i l).length = l.length := by
  induction l with
  | nil => intro i; rfl
  | cons a rest ih => intro i; simp [pyEnumFrom, ih]

theorem pyEnumFrom_fst_ge {α : Type} (l : List α) :
    ∀ i p, p ∈ pyEnumFrom i l → i ≤ p.1 := by
  induction l with
  | nil => intro i p h; simp [pyEnumFrom] at h
  | cons a rest ih =>
    intro i p h
    simp [pyEnumFrom] at h
    rcases h with h | h
    · simp [h]
    · exact Nat.le_of_succ_le (ih (i + 1) p h)

theorem pyEnumFrom_map_fst_nodup {α : Type} (l : List α) :
    ∀ i, ((pyEnumFrom i l).map Prod.fst).Nodup := by
  induction l with
  | nil => intro i; simp [pyEnumFrom]
  | cons a rest ih =>
    intro i
    rw [pyEnumFrom, List.map_cons, List.nodup_cons]
    refine ⟨?_, ih (i + 1)⟩
    intro hmem
    rw [List.mem_map] at hmem
    obtain ⟨p, hp, hfst⟩ := hmem
    have := pyEnumFrom_fst_ge rest (i + 1) p hp
    omega

theorem pyEnumFrom_append {α : Type} (l1 l2 : List α) :
    ∀ i, pyEnumFrom i (l1 ++ l2) = pyEnumFrom i l1 ++ pyEnumFrom (i + l1.length) l2 := by
  induction l1 with
  | nil => intro i; simp [pyEnumFrom]
  | cons a rest ih =>
    intro i
    simp [pyEnumFrom, ih (i + 1)]
    have : i + 1 + rest.length = i + (rest.length + 1) := by omega
    rw [this]

theorem pyEnumFrom_exists_of_lt {α : Type} (l : List α) :
    ∀ i d, d < l.length → ∃ a, (i + d, a) ∈ pyEnumFrom i l := by
  induction l with
  | nil => intro i d h; simp at h
  | cons a rest ih =>
    intro i d h
    match d with
    | 0 => exact ⟨a, by rw [pyEnumFrom]; exact List.mem_cons.2 (Or.inl (by simp))⟩
    | d + 1 =>
      obtain ⟨b, hb⟩ := ih (i + 1) d (by simpa using Nat.lt_of_succ_lt_succ h)
      refine ⟨b, ?_⟩
      rw [pyEnumFrom]
      refine List.mem_cons.2 (Or.inr ?_)
      have harith : i + (d + 1) = i + 1 + d := by omega
      rw [harith]
      exact hb

theorem mem_pyEnumFrom_listGet {α : Type} (l : List α) :
    ∀ i j a, (j, a) ∈ pyEnumFrom i l → i ≤ j ∧ listGet l (j - i) = some a := by
  induction l with
  | nil => intro i j a h; simp [pyEnumFrom] at h
  | cons x rest ih =>
    intro i j a h
    simp [pyEnumFrom] at h
    rcases h with ⟨h1, h2⟩ | h
    · subst h1; subst h2
      simp [listGet]
    · obtain ⟨hle, hget⟩ := ih (i + 1) j a h
      refine ⟨by omega, ?_⟩
      have : j - i = (j - (i + 1)) + 1 := by omega
      rw [this]
      simpa [listGet] using hget

/-! ### Decimal printing and parsing: round trip of the integer dict keys
through `mapper.json` -/

theorem digitChar_isDigit (d : Nat) : (digitChar d).isDigit = true := by
  unfold digitChar
  split <;> decide

theorem digitChar_toNat (d : Nat) (h : d < 10) : (digitChar d).toNat - 48 = d := by
  interval_cases d <;> decide

theorem decimalCharsAux_ne_nil {fuel n : Nat} (h : n < fuel) :
    decimalCharsAux fuel n ≠ [] := by
  match fuel with
  | f + 1 =>
    rw [decimalCharsAux]
    by_cases h10 : n < 10
    · simp [if_pos h10]
    · simp [if_neg h10]

theorem decimalCharsAux_all_digits {fuel : Nat} :
    ∀ n, n < fuel → ∀ c ∈ decimalCharsAux fuel n, c.isDigit = true := by
  induction fuel with
  | zero => intro n h; omega
  | succ f ih =>
    intro n _ c hc
    rw [decimalCharsAux] at hc
    by_cases h10 : n < 10
    · rw [if_pos h10] at hc
      rcases List.mem_singleton.1 hc with h2
      rw [h2]
      exact digitChar_isDigit n
    · rw [if_neg h10] at hc
      rcases List.mem_append.1 hc with h2 | h2
      · exact ih (n / 10) (by have := Nat.div_lt_self (by omega : 0 < n) (by omega : 1 < 10); omega) c h2
      · rw [List.mem_singleton.1 h2]
        exact digitChar_isDigit (n % 10)

theorem decimalCharsAux_foldl {fuel : Nat} :
    ∀ n, n < fuel → ∀ a : Nat,
      (decimalCharsAux fuel n).foldl (fun acc c => acc * 10 + (c.toNat - 48)) a
        = a * 10 ^ (decimalCharsAux fuel n).length + n := by
  induction fuel with
  | zero => intro n h; omega
  | succ f ih =>
    intro n hn a
    rw [decimalCharsAux]
    by_cases h10 : n < 10
    · rw [if_pos h10]
      simp [List.foldl_cons, digitChar_toNat n h10]
    · rw [if_neg h10]
      have hdivlt : n / 10 < f := by
        have := Nat.div_lt_self (by omega : 0 < n) (by omega : 1 < 10)
        omega
      rw [List.foldl_append, ih (n / 10) hdivlt a]
      simp only [List.foldl_cons, List.foldl_nil, List.length_append, List.length_cons,
        List.length_nil]
      rw [digitChar_toNat (n % 10) (Nat.mod_lt n (by omega))]
      have hmod : (a * 10 ^ (decimalCharsAux f (n / 10)).length + n / 10) * 10 + n % 10
          = a * (10 ^ (decimalCharsAux f (n / 10)).length * 10) + (10 * (n / 10) + n % 10) := by
        ring
      rw [hmod, Nat.div_add_mod n 10, pow_succ]

/-- `int(str(n)) == n`: the decimal key written by `json.dump` parses back
to the number it came from. -/
theorem pyIntParse_jsonIntKey (n : Nat) : pyIntParse (jsonIntKey n) = some n := by
  have hlt : n < n + 1 := Nat.lt_succ_self n
  have hdata : (jsonIntKey n).data = decimalChars n := rfl
  rw [pyIntParse, hdata]
  rw [decimalChars]
  rw [if_neg (decimalCharsAux_ne_nil hlt)]
  rw [if_pos]
  · rw [decimalCharsAux_foldl n hlt 0]
    simp
  · rw [List.all_eq_true]
    intro c hc
    exact decimalCharsAux_all_digits n hlt c hc

/-! ### Speaker-map lemmas -/

/-- Formalisation of the spec phrase "first-seen order": the first
occurrence of each name, in order, skipping names already in `seen`. -/
def firstSeen (seen : List String) : List String → List String
  | [] => []
  | n :: rest =>
    if n ∈ seen then firstSeen seen rest else n :: firstSeen (n :: seen) rest

theorem firstSeen_congr {s1 s2 : List String} (h : ∀ x, x ∈ s1 ↔ x ∈ s2) :
    ∀ l, firstSeen s1 l = firstSeen s2 l := by
  intro l
  induction l generalizing s1 s2 with
  | nil => rfl
  | cons n rest ih =>
    rw [firstSeen, firstSeen]
    by_cases hn : n ∈ s1
    · rw [if_pos hn, if_pos ((h n).1 hn)]
      exact ih h
    · rw [if_neg hn, if_neg (fun hc => hn ((h n).2 hc))]
      exact congrArg (n :: ·) (ih (fun x => by simp [List.mem_cons, h x]))

/-- Invariant of the `create_speaker_map` loop when the accumulated dict
assigns exactly the ids `0, …, k-1` to string keys: the final dict still
assigns a dense initial range of ids, and its keys extend the initial ones
by the first occurrences of the scanned speaker names. -/
theorem create_speaker_map_aux_spec (items : List Item) :
    ∀ (m : List (PyKey × Nat)) (k : Nat) (seen : List String),
      m.map Prod.snd = List.range k →
      dictKeys m = seen.map PyKey.str →
      (create_speaker_map_aux m k items).map Prod.snd
          = List.range (create_speaker_map_aux m k items).length ∧
        dictKeys (create_speaker_map_aux m k items)
          = (seen ++ firstSeen seen (items.map Item.speaker_name)).map PyKey.str := by
  induction items with
  | nil =>
    intro m k seen hsnd hkeys
    have hlen : m.length = k := by
      have := congrArg List.length hsnd
      simpa using this
    constructor
    · rw [create_speaker_map_aux, hsnd, hlen]
    · rw [create_speaker_map_aux, hkeys]
      simp [firstSeen]
  | cons i rest ih =>
    intro m k seen hsnd hkeys
    have hmemiff : (dictLookup m (PyKey.str i.speaker_name)).isSome = true
        ↔ i.speaker_name ∈ seen := by
      rw [dictLookup_isSome_iff, hkeys, List.mem_map]
      constructor
      · rintro ⟨x, hx, hex⟩
        injection hex with h2
        rw [← h2]
        exact hx
      · intro hmem
        exact ⟨i.speaker_name, hmem, rfl⟩
    by_cases hs : (dictLookup m (PyKey.str i.speaker_name)).isSome = true
    · rw [create_speaker_map_aux, if_pos hs]
      have hseen : i.speaker_name ∈ seen := hmemiff.1 hs
      have := ih m k seen hsnd hkeys
      rw [List.map_cons, firstSeen, if_pos hseen]
      exact this
    · rw [create_speaker_map_aux, if_neg hs]
      have hseen : i.speaker_name ∉ seen := fun hc => hs (hmemiff.2 hc)
      have hnotkey : PyKey.str i.speaker_name ∉ dictKeys m := by
        rw [hkeys, List.mem_map]
        rintro ⟨x, hx, hex⟩
        injection hex with h2
        exact hseen (h2 ▸ hx)
      have hins : dictInsert m (PyKey.str i.speaker_name) k = m ++ [(PyKey.str i.speaker_name, k)] :=
        dictInsert_of_not_mem k hnotkey
      rw [hins]
      have hsnd2 : (m ++ [(PyKey.str i.speaker_name, k)]).map Prod.snd = List.range (k + 1) := by
        rw [List.map_append, hsnd, List.range_succ]
        rfl
      have hkeys2 : dictKeys (m ++ [(PyKey.str i.speaker_name, k)])
          = (seen ++ [i.speaker_name]).map PyKey.str := by
        rw [dictKeys_append, hkeys, List.map_append]
        rfl
      obtain ⟨h1, h2⟩ := ih (m ++ [(PyKey.str i.speaker_name, k)]) (k + 1)
        (seen ++ [i.speaker_name]) hsnd2 hkeys2
      refine ⟨h1, ?_⟩
      rw [h2, List.map_cons, firstSeen, if_neg hseen]
      have hcongr : firstSeen (seen ++ [i.speaker_name]) (rest.map Item.speaker_name)
          = firstSeen (i.speaker_name :: seen) (rest.map Item.speaker_name) :=
        firstSeen_congr (fun x => by simp [List.mem_append, List.mem_cons, or_comm]) _
      rw [hcongr, List.append_assoc]
      rfl

/-- The `create_speaker_map` loop only ever inserts string keys, so an
all-string-keyed initial dict stays all-string-keyed. -/
theorem create_speaker_map_aux_keys_str (items : List Item) :
    ∀ (m : List (PyKey × Nat)) (k : Nat),
      (∀ key ∈ dictKeys m, ∃ s, key = PyKey.str s) →
      ∀ key ∈ dictKeys (create_speaker_map_aux m k items), ∃ s, key = PyKey.str s := by
  induction items with
  | nil =>
    intro m k h key hkey
    rw [create_speaker_map_aux] at hkey
    exact h key hkey
  | cons i rest ih =>
    intro m k h key hkey
    rw [create_speaker_map_aux] at hkey
    by_cases hs : (dictLookup m (PyKey.str i.speaker_name)).isSome = true
    · rw [if_pos hs] at hkey
      exact ih m k h key hkey
    · rw [if_neg hs] at hkey
      refine ih _ (k + 1) ?_ key hkey
      intro key2 hkey2
      rcases mem_dictKeys_dictInsert hkey2 with h2 | h2
      · exact ⟨i.speaker_name, h2⟩
      · exact h key2 h2

/-- Looking an integer key up in a dict whose keys are all strings always
fails: Python `==` never identifies an int with a str. -/
theorem dictLookup_int_of_keys_str {m : List (PyKey × Nat)}
    (h : ∀ key ∈ dictKeys m, ∃ s, key = PyKey.str s) (i : Nat) :
    dictLookup m (.int i) = none := by
  rw [dictLookup_eq_none_iff]
  intro hmem
  obtain ⟨s, hs⟩ := h (.int i) hmem
  exact PyKey.noConfusion hs

/-! ### Symbol-table lemmas -/

theorem build_id_to_symbol_eq (syms : List String) :
    build_id_to_symbol syms = pyEnumFrom 0 syms := by
  rw [build_id_to_symbol]
  have h := foldl_dictInsert_of_nodup (pyEnumFrom 0 syms) []
    (by simpa [dictKeys_nil] using pyEnumFrom_map_fst_nodup syms 0)
  simpa using h

theorem build_symbol_to_id_eq {syms : List String} (hnd : syms.Nodup) :
    build_symbol_to_id syms = (pyEnumFrom 0 syms).map (fun p => (p.2, p.1)) := by
  rw [build_symbol_to_id]
  have hfold : (pyEnumFrom 0 syms).foldl (fun d p => dictInsert d p.2 p.1) []
      = ((pyEnumFrom 0 syms).map (fun p : Nat × String => (p.2, p.1))).foldl
          (fun d p => dictInsert d p.1 p.2) [] := by
    rw [List.foldl_map]
  rw [hfold]
  have hkeys : ((pyEnumFrom 0 syms).map (fun p : Nat × String => (p.2, p.1))).map Prod.fst
      = syms := by
    rw [List.map_map]
    have : (Prod.fst ∘ fun p : Nat × String => (p.2, p.1)) = Prod.snd := rfl
    rw [this, pyEnumFrom_map_snd]
  have h := foldl_dictInsert_of_nodup
    ((pyEnumFrom 0 syms).map (fun p : Nat × String => (p.2, p.1))) []
    (by simpa [dictKeys_nil, hkeys] using hnd)
  simpa using h

theorem dictKeys_build_symbol_to_id {syms : List String} (hnd : syms.Nodup) :
    dictKeys (build_symbol_to_id syms) = syms := by
  rw [build_symbol_to_id_eq hnd, dictKeys, List.map_map]
  have : (Prod.fst ∘ fun p : Nat × String => (p.2, p.1)) = Prod.snd := rfl
  rw [this, pyEnumFrom_map_snd]

theorem mem_swap_iff {syms : List String} (s : String) (i : Nat) :
    (s, i) ∈ (pyEnumFrom 0 syms).map (fun p : Nat × String => (p.2, p.1))
      ↔ (i, s) ∈ pyEnumFrom 0 syms := by
  rw [List.mem_map]
  constructor
  · rintro ⟨⟨j, t⟩, hq, heq⟩
    injection heq with h1 h2
    have ht : t = s := h1
    have hj : j = i := h2
    rw [← ht, ← hj]
    exact hq
  · intro h
    exact ⟨(i, s), h, rfl⟩

/-- Looking up a symbol in the built `symbol_to_id` is exactly membership
in the enumeration, when the symbols are pairwise distinct. -/
theorem build_symbol_to_id_lookup {syms : List String} (hnd : syms.Nodup) (s : String) (i : Nat) :
    dictLookup (build_symbol_to_id syms) s = some i ↔ (i, s) ∈ pyEnumFrom 0 syms := by
  rw [dictLookup_eq_some_iff (by rw [dictKeys_build_symbol_to_id hnd]; exact hnd),
    build_symbol_to_id_eq hnd, mem_swap_iff]

/-- Looking up an id in the built `id_to_symbol` is exactly membership in
the enumeration. -/
theorem build_id_to_symbol_lookup (syms : List String) (s : String) (i : Nat) :
    dictLookup (build_id_to_symbol syms) i = some s ↔ (i, s) ∈ pyEnumFrom 0 syms := by
  rw [build_id_to_symbol_eq]
  rw [dictLookup_eq_some_iff (by simpa [dictKeys] using pyEnumFrom_map_fst_nodup syms 0)]

/-! ### Round trip of `mapper.json` -/

theorem parse_id_to_symbol_save (l : List (Nat × String)) :
    parse_id_to_symbol (l.map (fun p => (jsonIntKey p.1, p.2))) = .ok l := by
  induction l with
  | nil => rfl
  | cons p rest ih =>
    obtain ⟨n, v⟩ := p
    rw [List.map_cons, parse_id_to_symbol]
    rw [pyIntParse_jsonIntKey n, ih]

theorem speakers_map_roundtrip {m : List (PyKey × Nat)}
    (h : ∀ key ∈ dictKeys m, ∃ s, key = PyKey.str s) :
    (m.map (fun p => (pyKeyToJsonKey p.1, p.2))).map (fun p => (PyKey.str p.1, p.2)) = m := by
  induction m with
  | nil => rfl
  | cons p rest ih =>
    obtain ⟨key, v⟩ := p
    obtain ⟨s, hs⟩ := h key (by rw [dictKeys_cons]; exact List.mem_cons.2 (Or.inl rfl))
    rw [List.map_cons, List.map_cons,
      ih (fun k2 hk2 => h k2 (by rw [dictKeys_cons]; exact List.mem_cons.2 (Or.inr hk2)))]
    rw [hs]
    rfl

/-! ### `create_items` success on well-formed manifests -/

theorem listGet_lt {α : Type} {l : List α} {n : Nat} (h : n < l.length) :
    ∃ a, listGet l n = some a := by
  induction l generalizing n with
  | nil => simp at h
  | cons a rest ih =>
    match n with
    | 0 => exact ⟨a, rfl⟩
    | n + 1 => exact ih (by simpa using Nat.lt_of_succ_lt_succ h)

/-- A line whose split contains all three configured field positions
parses successfully. -/
theorem parseLine_ok_of_bounds {cfg : Config} (hdelim : cfg.delimiter ≠ "") {line : String}
    (hwf : cfg.positions.file < (pySplit (pyStrip line) cfg.delimiter).length ∧
           cfg.positions.text < (pySplit (pyStrip line) cfg.delimiter).length ∧
           cfg.positions.speaker_name < (pySplit (pyStrip line) cfg.delimiter).length) :
    ∃ it, parseLine cfg line = .ok it := by
  obtain ⟨p0, hp0⟩ := listGet_lt hwf.1
  obtain ⟨txt, htxt⟩ := listGet_lt hwf.2.1
  obtain ⟨sp, hsp⟩ := listGet_lt hwf.2.2
  refine ⟨⟨txt, ?_, sp⟩, ?_⟩
  · exact
      (if pyTakeRight (osPathJoin cfg.root_dir p0) cfg.f_extension.length ≠ cfg.f_extension
       then osPathJoin cfg.root_dir p0 ++ cfg.f_extension else osPathJoin cfg.root_dir p0)
  · rw [parseLine, if_neg hdelim]
    simp only
    rw [hp0, htxt, hsp]

/-- On a manifest all of whose lines are well-formed, `create_items`
returns one item per line, in file order. -/
theorem create_items_ok {cfg : Config} (hdelim : cfg.delimiter ≠ "") (lines : List String)
    (hwf : ∀ line ∈ lines,
      cfg.positions.file < (pySplit (pyStrip line) cfg.delimiter).length ∧
      cfg.positions.text < (pySplit (pyStrip line) cfg.delimiter).length ∧
      cfg.positions.speaker_name < (pySplit (pyStrip line) cfg.delimiter).length) :
    ∃ items, create_items cfg lines = .ok items ∧ items.length = lines.length ∧
      ∀ d, listGet items d = (listGet lines d).bind (fun line => (parseLine cfg line).toOption) := by
  induction lines with
  | nil =>
    refine ⟨[], rfl, rfl, ?_⟩
    intro d
    simp [listGet]
  | cons line rest ih =>
    obtain ⟨it, hit⟩ := parseLine_ok_of_bounds hdelim
      (hwf line (List.mem_cons.2 (Or.inl rfl)))
    obtain ⟨items, hitems, hlen, hidx⟩ := ih
      (fun l2 hl2 => hwf l2 (List.mem_cons.2 (Or.inr hl2)))
    refine ⟨it :: items, ?_, by simpa using hlen, ?_⟩
    · rw [create_items, hit, hitems]
    · intro d
      match d with
      | 0 => simp [listGet, hit, Except.toOption]
      | d + 1 => simpa [listGet] using hidx d

/-! ### Helper lemmas for `__getattr__` -/

/-- When the attribute name contains `"_id"` and the piece before the
first occurrence resolves through `extra_tokens` and `symbol_to_id`, the
fallback returns that id. -/
theorem getattr_fallback_id_of {name tok tokv : String} {i : Nat} (st : Prepro)
    (h1 : 1 < (pySplit name "_id").length)
    (h2 : (pySplit name "_id").headD "" = tok)
    (h3 : dictLookup extra_tokens tok = some tokv)
    (h4 : dictLookup st.symbol_to_id tokv = some i) :
    getattr_fallback st name = .ok (.int i) := by
  rw [getattr_fallback, if_pos h1, h2, h3]
  simp only [h4]

/-! ### The claims -/

/-- Claim C1: the claim states that `convert_symbols_to_ids(["a","b"])`
returns `[id(a), id(b)]` when both symbols are in the table, that a bare
string yields a one-element sequence, that an unknown symbol raises a
lookup error, and that a non-string list element raises a type-validation
error.  On the code, the method reads `self._symbol_to_id` — an attribute
that does not exist (the field is `symbol_to_id`) — so Python dispatches
to `__getattr__("_symbol_to_id")`, which looks up
`extra_tokens["_symbol_to"]` and raises KeyError for every string input,
even when the symbols are present in the table.  This theorem runs the
embedded code on the fully constructed `demo_state`, whose table does
contain "a" and "b" with ids 0 and 1. -/
theorem claim_C1_convert_always_keyerror :
    dictLookup demo_state.symbol_to_id "a" = some 0 ∧
    dictLookup demo_state.symbol_to_id "b" = some 1 ∧
    convert_symbols_to_ids demo_state (.list [.str "a", .str "b"]) = .error .keyError ∧
    convert_symbols_to_ids demo_state (.str "a") = .error .keyError ∧
    getattr_fallback demo_state "_symbol_to_id" = .error .keyError ∧
    convert_symbols_to_ids demo_state (.list [.int 7]) = .error .valueError ∧
    convert_symbols_to_ids demo_state (.list [.str "zz"]) = .error .keyError :=
  ⟨by decide, by decide, rfl, rfl, rfl, rfl, rfl⟩

/-- Claim C2: the claim states
`get_speaker_name(get_speaker_id(name)) == name` for every corpus speaker.
On the code, `get_speaker_name` indexes `speakers_map` (a dict keyed by
speaker name strings) with an integer id instead of using the
`reverse_speaker` dict built in `__post_init__`, so the composition raises
KeyError.  `demo_state` is the instance built from the manifest line
`"w1|a|spk1"`; `get_speaker_id` yields 0, and `get_speaker_name 0`
fails. -/
theorem claim_C2_speaker_roundtrip_fails :
    get_speaker_id demo_state "spk1" = .ok 0 ∧
    get_speaker_name demo_state 0 = .error .keyError := by
  decide

/-- Any instance whose speaker keys are all strings — every instance built
from a manifest — fails every `get_speaker_name` lookup. -/
theorem get_speaker_name_always_fails (st : Prepro)
    (h : ∀ key ∈ dictKeys st.speakers_map, ∃ s, key = PyKey.str s) (i : Nat) :
    get_speaker_name st i = .error .keyError := by
  rw [get_speaker_name, dictLookup_int_of_keys_str h]

/-- Claim C7: parsing the manifest line `"wav001|hello world|spk1"` with
root `"/data"` and extension `".wav"` yields the item
`("hello world", "/data/wav001.wav", "spk1")`; an already-suffixed file
field is not re-suffixed; the first speaker gets id 0 and later new
speakers get the next sequential ids in first-seen order. -/
theorem claim_C7_end_to_end :
    create_items { root_dir := "/data", symbols := ["a"] } ["wav001|hello world|spk1"]
      = .ok [⟨"hello world", "/data/wav001.wav", "spk1"⟩] ∧
    create_items { root_dir := "/data", symbols := ["a"] } ["wav002.wav|hi|spk1"]
      = .ok [⟨"hi", "/data/wav002.wav", "spk1"⟩] ∧
    create_speaker_map [] [⟨"hello world", "/data/wav001.wav", "spk1"⟩]
      = [(PyKey.str "spk1", 0)] ∧
    create_speaker_map []
        [⟨"t1", "w1", "spk1"⟩, ⟨"t2", "w2", "spk2"⟩, ⟨"t3", "w3", "spk1"⟩, ⟨"t4", "w4", "spk3"⟩]
      = [(PyKey.str "spk1", 0), (PyKey.str "spk2", 1), (PyKey.str "spk3", 2)] := by
  decide

/-- Claim C8: with vocabulary reuse off and an empty base symbol list,
construction fails with the module validation error, for every manifest
and every mapper file — in particular before any manifest parsing or
table construction can matter. -/
theorem claim_C8_empty_symbols (cfg : Config) (manifest : List String)
    (mf : Option MapperJson) (hl : cfg.load_mapper = false) (hs : cfg.symbols = []) :
    post_init cfg manifest mf = .error .dataProcessorError := by
  rw [post_init.eq_def, hl]
  simp [hs]

/-- Concrete instance of `claim_C8_empty_symbols`: the dataclass defaults
leave `symbols` empty and `load_mapper` false. -/
theorem claim_C8_empty_symbols_witness :
    post_init { root_dir := "/d" } ["x|y|z"] none = .error .dataProcessorError :=
  claim_C8_empty_symbols { root_dir := "/d" } ["x|y|z"] none rfl rfl

/-- Claim C3, counterexample: for the non-empty base list `["a", "a"]` the
built `symbol_to_id` has 5 entries, not `len(base) + 4 = 6`, because the
dict comprehension collapses the duplicate; and the two dicts are not
mutual inverses there: `id_to_symbol[0] = "a"` but `symbol_to_id["a"] = 1`.
This falsifies the claim as stated over every non-empty base list. -/
theorem claim_C3_counterexample :
    (["a", "a"] : List String) ≠ [] ∧
    (build_symbol_to_id (symbols_full ["a", "a"])).length ≠ (["a", "a"] : List String).length + 4 ∧
    dictLookup (build_id_to_symbol (symbols_full ["a", "a"])) 0 = some "a" ∧
    dictLookup (build_symbol_to_id (symbols_full ["a", "a"])) "a" = some 1 := by
  decide

/-- Claim C3, amended: for every non-empty base symbol list that is
duplicate-free and disjoint from the four reserved control symbols (so
that `symbols + [UNK, PAD, EOS, BOS]` has no duplicates), the symbol table
has size `len(base) + 4`, the four reserved symbols occupy the last four
ids in the order unknown, pad, eos, bos, the two dicts are mutual
inverses, every id below the size is mapped, and `["a","b","c"]` yields
exactly the table of the claim. -/
theorem claim_C3_symbol_table (base : List String) (_hne : base ≠ [])
    (hnd : (symbols_full base).Nodup) :
    (build_symbol_to_id (symbols_full base)).length = base.length + 4 ∧
    dictLookup (build_symbol_to_id (symbols_full base)) "[UNK]" = some base.length ∧
    dictLookup (build_symbol_to_id (symbols_full base)) "[PAD]" = some (base.length + 1) ∧
    dictLookup (build_symbol_to_id (symbols_full base)) "[EOS]" = some (base.length + 2) ∧
    dictLookup (build_symbol_to_id (symbols_full base)) "[BOS]" = some (base.length + 3) ∧
    (∀ s i, dictLookup (build_symbol_to_id (symbols_full base)) s = some i
      ↔ dictLookup (build_id_to_symbol (symbols_full base)) i = some s) ∧
    (∀ i, i < base.length + 4 →
      ∃ s, dictLookup (build_id_to_symbol (symbols_full base)) i = some s) ∧
    build_symbol_to_id (symbols_full ["a", "b", "c"])
      = [("a", 0), ("b", 1), ("c", 2), ("[UNK]", 3), ("[PAD]", 4), ("[EOS]", 5), ("[BOS]", 6)] := by
  have hlenfull : (symbols_full base).length = base.length + 4 := by
    rw [symbols_full, List.length_append]
    rfl
  have hextra : ∀ k : Nat, ∀ t : String, (k, t) ∈ pyEnumFrom base.length extra_token_values →
      (base.length + (k - base.length), t) ∈ pyEnumFrom 0 (symbols_full base) := by
    intro k t hmem
    have hge := pyEnumFrom_fst_ge extra_token_values base.length (k, t) hmem
    rw [symbols_full, pyEnumFrom_append]
    refine List.mem_append.2 (Or.inr ?_)
    have : base.length + (k - base.length) = k := by omega
    rw [this]
    simpa using hmem
  have hmemtok : ∀ d : Nat, ∀ t : String, listGet extra_token_values d = some t →
      (base.length + d, t) ∈ pyEnumFrom 0 (symbols_full base) := by
    intro d t hget
    rw [symbols_full, pyEnumFrom_append]
    refine List.mem_append.2 (Or.inr ?_)
    match d, hget with
    | 0, hget =>
      injection hget with h2
      rw [← h2]
      exact List.mem_cons.2 (Or.inl (by simp))
    | 1, hget =>
      injection hget with h2
      rw [← h2]
      refine List.mem_cons.2 (Or.inr (List.mem_cons.2 (Or.inl ?_)))
      simp
    | 2, hget =>
      injection hget with h2
      rw [← h2]
      refine List.mem_cons.2 (Or.inr (List.mem_cons.2 (Or.inr (List.mem_cons.2 (Or.inl ?_)))))
      simp
    | 3, hget =>
      injection hget with h2
      rw [← h2]
      refine List.mem_cons.2 (Or.inr (List.mem_cons.2 (Or.inr (List.mem_cons.2 (Or.inr
        (List.mem_cons.2 (Or.inl ?_)))))))
      simp
  refine ⟨?_, ?_, ?_, ?_, ?_, ?_, ?_, by decide⟩
  · rw [build_symbol_to_id_eq hnd, List.length_map, pyEnumFrom_length, hlenfull]
  · exact (build_symbol_to_id_lookup hnd _ _).2 (by simpa using hmemtok 0 "[UNK]" rfl)
  · exact (build_symbol_to_id_lookup hnd _ _).2 (by simpa using hmemtok 1 "[PAD]" rfl)
  · exact (build_symbol_to_id_lookup hnd _ _).2 (by simpa using hmemtok 2 "[EOS]" rfl)
  · exact (build_symbol_to_id_lookup hnd _ _).2 (by simpa using hmemtok 3 "[BOS]" rfl)
  · intro s i
    rw [build_symbol_to_id_lookup hnd, build_id_to_symbol_lookup]
  · intro i hi
    obtain ⟨s, hs⟩ := pyEnumFrom_exists_of_lt (symbols_full base) 0 i (by rw [hlenfull]; exact hi)
    exact ⟨s, (build_id_to_symbol_lookup _ _ _).2 (by simpa using hs)⟩

/-- Concrete instance of `claim_C3_symbol_table` at `base = ["a","b","c"]`. -/
theorem claim_C3_symbol_table_witness :
    (build_symbol_to_id (symbols_full ["a", "b", "c"])).length = (["a", "b", "c"] : List String).length + 4 ∧
    dictLookup (build_symbol_to_id (symbols_full ["a", "b", "c"])) "[UNK]"
      = some (["a", "b", "c"] : List String).length :=
  ⟨(claim_C3_symbol_table ["a", "b", "c"] (by decide) (by decide)).1,
   (claim_C3_symbol_table ["a", "b", "c"] (by decide) (by decide)).2.1⟩

/-- Claim C4, counterexample: the claim says empty lines are skipped and
produce no error, but `create_items` splits the stripped empty line into
`[""]` and `parts[1]` raises IndexError, aborting construction. -/
theorem claim_C4_counterexample :
    create_items demo_cfg ["wav1|hi|spk1", ""] = .error .indexError := by
  decide

/-- Claim C4, amended: for a manifest all of whose lines split (after
stripping) into pieces covering the three configured field positions,
construction yields exactly one item per line, in file order; an empty
line is not skipped but raises IndexError. -/
theorem claim_C4_items_per_line (cfg : Config) (lines : List String)
    (hdelim : cfg.delimiter ≠ "")
    (hwf : ∀ line ∈ lines,
      cfg.positions.file < (pySplit (pyStrip line) cfg.delimiter).length ∧
      cfg.positions.text < (pySplit (pyStrip line) cfg.delimiter).length ∧
      cfg.positions.speaker_name < (pySplit (pyStrip line) cfg.delimiter).length) :
    (∃ items, create_items cfg lines = .ok items ∧ items.length = lines.length ∧
      ∀ d, listGet items d
        = (listGet lines d).bind (fun line => (parseLine cfg line).toOption)) ∧
    parseLine demo_cfg "" = .error .indexError ∧
    create_items demo_cfg [""] = .error .indexError :=
  ⟨create_items_ok hdelim lines hwf, by decide, by decide⟩

/-- Concrete instance of `claim_C4_items_per_line` on a one-line
manifest. -/
theorem claim_C4_items_per_line_witness :
    ∃ items, create_items demo_cfg ["wav1|hi|spk1"] = .ok items ∧
      items.length = (["wav1|hi|spk1"] : List String).length ∧
      ∀ d, listGet items d
        = (listGet ["wav1|hi|spk1"] d).bind (fun line => (parseLine demo_cfg line).toOption) :=
  (claim_C4_items_per_line demo_cfg ["wav1|hi|spk1"] (by decide) (by decide)).1

/-- Claim C10: starting from the empty default `speakers_map`, the built
map is injective with dense ids `0, …, k-1` assigned in first-seen order;
but with a non-empty initial map binding "alice" to 0, a new manifest
speaker "bob" is also assigned 0 because `sp_id` restarts at 0, so two
distinct names share an id. -/
theorem claim_C10_speaker_id_restart :
    (∀ items : List Item,
      (create_speaker_map [] items).map Prod.snd
          = List.range (create_speaker_map [] items).length ∧
      dictKeys (create_speaker_map [] items)
          = (firstSeen [] (items.map Item.speaker_name)).map PyKey.str ∧
      ∀ p q : PyKey × Nat, p ∈ create_speaker_map [] items →
        q ∈ create_speaker_map [] items → p.2 = q.2 → p.1 = q.1) ∧
    (create_speaker_map [(PyKey.str "alice", 0)] [⟨"t", "w", "bob"⟩]
        = [(PyKey.str "alice", 0), (PyKey.str "bob", 0)] ∧
      PyKey.str "alice" ≠ PyKey.str "bob") := by
  constructor
  · intro items
    simp only [create_speaker_map]
    obtain ⟨h1, h2⟩ := create_speaker_map_aux_spec items [] 0 [] (by rfl) (by rfl)
    refine ⟨h1, by simpa using h2, ?_⟩
    intro p q hp hq hpq
    have hnd : ((create_speaker_map_aux [] 0 items).map Prod.snd).Nodup := by
      rw [h1]
      exact List.nodup_range _
    have := List.inj_on_of_nodup_map hnd hp hq hpq
    rw [this]
  · exact ⟨by decide, by decide⟩

/-- Concrete instance of the universal half of
`claim_C10_speaker_id_restart`. -/
theorem claim_C10_speaker_id_restart_witness :
    dictKeys (create_speaker_map [] [⟨"t", "w", "s1"⟩, ⟨"t2", "w2", "s1"⟩])
      = (firstSeen [] ["s1", "s1"]).map PyKey.str :=
  (claim_C10_speaker_id_restart.1 [⟨"t", "w", "s1"⟩, ⟨"t2", "w2", "s1"⟩]).2.1

/-- Claim C6: `add_symbol` on a string already in the table is a no-op (so
it is idempotent and the id is stable); a new string is appended with id
`len(symbol_to_id)` read before the insertion, growing the table by one; a
list recurses element-wise; an argument that is neither string nor list
raises ValueError. -/
theorem claim_C6_add_symbol :
    (∀ (st : Prepro) (s : String), (dictLookup st.symbol_to_id s).isSome = true →
        add_symbol st (.str s) = .ok st) ∧
    (∀ (st : Prepro) (s : String), dictLookup st.symbol_to_id s = none →
        add_symbol st (.str s) =
          .ok { st with
                symbols := st.symbols ++ [s],
                symbol_to_id := dictInsert st.symbol_to_id s st.symbol_to_id.length,
                id_to_symbol := dictInsert st.id_to_symbol st.symbol_to_id.length s } ∧
        dictLookup (dictInsert st.symbol_to_id s st.symbol_to_id.length) s
          = some st.symbol_to_id.length ∧
        (dictInsert st.symbol_to_id s st.symbol_to_id.length).length
          = st.symbol_to_id.length + 1) ∧
    (∀ (st st2 : Prepro) (s : String), add_symbol st (.str s) = .ok st2 →
        add_symbol st2 (.str s) = .ok st2) ∧
    (∀ (st : Prepro) (x : PyObj) (xs : List PyObj),
        add_symbol st (.list (x :: xs)) =
          match add_symbol st x with
          | .error e => .error e
          | .ok st2 => add_symbol st2 (.list xs)) ∧
    (∀ st : Prepro, add_symbol st (.list []) = .ok st) ∧
    (∀ (st : Prepro) (n : Nat), add_symbol st (.int n) = .error .valueError) := by
  have hpresent : ∀ (st : Prepro) (s : String), (dictLookup st.symbol_to_id s).isSome = true →
      add_symbol st (.str s) = .ok st := by
    intro st s h
    simp only [add_symbol]
    rw [if_pos h]
  refine ⟨hpresent, ?_, ?_, ?_, ?_, ?_⟩
  · intro st s h
    have hns : ¬((dictLookup st.symbol_to_id s).isSome = true) := by simp [h]
    refine ⟨?_, dictLookup_dictInsert_self _ _ _,
      length_dictInsert_of_not_mem _ ((dictLookup_eq_none_iff _ _).1 h)⟩
    simp only [add_symbol]
    rw [if_neg hns]
  · intro st st2 s h
    by_cases hl : (dictLookup st.symbol_to_id s).isSome = true
    · rw [hpresent st s hl] at h
      injection h with h2
      rw [← h2]
      exact hpresent st s hl
    · simp only [add_symbol] at h
      rw [if_neg hl] at h
      injection h with h2
      rw [← h2]
      refine hpresent _ s ?_
      rw [dictLookup_dictInsert_self]
      rfl
  · intro st x xs
    rfl
  · intro st
    rfl
  · intro st n
    rfl

/-- Concrete instance of `claim_C6_add_symbol`: re-adding "a" to
`demo_state` is a no-op. -/
theorem claim_C6_add_symbol_witness :
    add_symbol demo_state (.str "a") = .ok demo_state :=
  claim_C6_add_symbol.1 demo_state "a" (by decide)

/-- Claim C9, counterexample: the claim says the dynamic dispatch serves
exactly the four reserved names and their `_id` variants and is not a
general mechanism over other attribute names; but `__getattr__` tests for
`"_id"` anywhere in the name and keys on the text before the first
occurrence, so the attribute name `"unk_identity"` — none of the eight —
also returns the unk id (2 in `demo_state`). -/
theorem claim_C9_counterexample :
    getattr_fallback demo_state "unk_identity" = .ok (.int 2) ∧
    ("unk_identity"
      ∉ (["unk", "pad", "eos", "bos", "unk_id", "pad_id", "eos_id", "bos_id"] : List String)) :=
  ⟨rfl, by decide⟩

/-- Claim C9, amended: for the four reserved token names, bare access
returns the token string and `_id`-suffixed access returns its table id;
the dispatch keys on the substring `"_id"` and the piece before its first
occurrence, so names such as `"unk_identity"` also resolve to the token
id; every name that neither is a reserved name nor starts with a reserved
name followed by `"_id"` raises KeyError. -/
theorem claim_C9_token_facade (st : Prepro) (u p e b : Nat)
    (hu : dictLookup st.symbol_to_id "[UNK]" = some u)
    (hp : dictLookup st.symbol_to_id "[PAD]" = some p)
    (he : dictLookup st.symbol_to_id "[EOS]" = some e)
    (hb : dictLookup st.symbol_to_id "[BOS]" = some b) :
    getattr_fallback st "unk" = .ok (.str "[UNK]") ∧
    getattr_fallback st "pad" = .ok (.str "[PAD]") ∧
    getattr_fallback st "eos" = .ok (.str "[EOS]") ∧
    getattr_fallback st "bos" = .ok (.str "[BOS]") ∧
    getattr_fallback st "unk_id" = .ok (.int u) ∧
    getattr_fallback st "pad_id" = .ok (.int p) ∧
    getattr_fallback st "eos_id" = .ok (.int e) ∧
    getattr_fallback st "bos_id" = .ok (.int b) ∧
    getattr_fallback st "unk_identity" = .ok (.int u) ∧
    (∀ name : String, (pySplit name "_id").length ≤ 1 →
      name ∉ (["unk", "pad", "eos", "bos"] : List String) →
      getattr_fallback st name = .error .keyError) ∧
    (∀ name : String, 1 < (pySplit name "_id").length →
      (pySplit name "_id").headD "" ∉ (["unk", "pad", "eos", "bos"] : List String) →
      getattr_fallback st name = .error .keyError) := by
  refine ⟨rfl, rfl, rfl, rfl,
    getattr_fallback_id_of st (by decide) rfl rfl hu,
    getattr_fallback_id_of st (by decide) rfl rfl hp,
    getattr_fallback_id_of st (by decide) rfl rfl he,
    getattr_fallback_id_of st (by decide) rfl rfl hb,
    getattr_fallback_id_of st (by decide) rfl rfl hu, ?_, ?_⟩
  · intro name hle hnot
    rw [getattr_fallback, if_neg (by omega)]
    have hnone : dictLookup extra_tokens name = none := by
      rw [dictLookup_eq_none_iff]
      simpa [extra_tokens, dictKeys] using hnot
    rw [hnone]
  · intro name hgt hnot
    rw [getattr_fallback, if_pos hgt]
    have hnone : dictLookup extra_tokens ((pySplit name "_id").headD "") = none := by
      rw [dictLookup_eq_none_iff]
      simpa [extra_tokens, dictKeys] using hnot
    rw [hnone]

/-- Concrete instance of `claim_C9_token_facade` at `demo_state`. -/
theorem claim_C9_token_facade_witness :
    getattr_fallback demo_state "unk" = .ok (.str "[UNK]") :=
  (claim_C9_token_facade demo_state 2 3 4 5 (by decide) (by decide) (by decide) (by decide)).1

/-- Claim C5: when construction from a manifest succeeds and writes the
vocabulary snapshot, constructing again from the same root directory with
`load_mapper` set yields identical `symbol_to_id`, `id_to_symbol` (with
integer keys restored by `int(k)`), and `speakers_map`; the reload-path
instance has an empty item list and never reads the manifest (its result
is the same for every manifest).  The initial `speakers_map` is assumed
string-keyed, as its dataclass annotation `Dict[str, int]` declares. -/
theorem claim_C5_vocabulary_roundtrip (cfg : Config) (manifest : List String)
    (st1 : Prepro) (snap : MapperJson) (cfg2 : Config)
    (hl : cfg.load_mapper = false)
    (hkeys : ∀ key ∈ dictKeys cfg.speakers_map, ∃ s, key = PyKey.str s)
    (hok : post_init cfg manifest none = .ok (st1, some snap))
    (hl2 : cfg2.load_mapper = true) (manifest2 : List String) :
    ∃ st2, post_init cfg2 manifest2 (some snap) = .ok (st2, none) ∧
      st2.symbol_to_id = st1.symbol_to_id ∧
      st2.id_to_symbol = st1.id_to_symbol ∧
      st2.speakers_map = st1.speakers_map ∧
      st2.items = [] ∧
      (∀ mA mB : List String,
        post_init cfg2 mA (some snap) = post_init cfg2 mB (some snap)) := by
  rw [post_init.eq_def] at hok
  rw [if_neg (show ¬(cfg.load_mapper = true) by simp [hl])] at hok
  split at hok
  · exact Except.noConfusion hok
  · split at hok
    · exact Except.noConfusion hok
    · rename_i items heq
      by_cases hsave : cfg.save_mapper = true
      · simp only [hsave, if_true] at hok
        injection hok with h2
        have hst : build_state cfg items = st1 := congrArg Prod.fst h2
        have hsnap : some (save_mapper_json (build_state cfg items)) = some snap :=
          congrArg Prod.snd h2
        injection hsnap with hsnap2
        have hsnapeq : snap = save_mapper_json st1 := by rw [← hsnap2, hst]
        have hstr : ∀ key ∈ dictKeys st1.speakers_map, ∃ s, key = PyKey.str s := by
          rw [← hst]
          intro key hkey
          refine create_speaker_map_aux_keys_str items cfg.speakers_map 0 hkeys key ?_
          simpa [build_state, create_speaker_map] using hkey
        have hparse : parse_id_to_symbol snap.id_to_symbol = .ok st1.id_to_symbol := by
          rw [hsnapeq]
          simp only [save_mapper_json]
          exact parse_id_to_symbol_save _
        have hspeak : snap.speakers_map.map (fun p => (PyKey.str p.1, p.2))
            = st1.speakers_map := by
          rw [hsnapeq]
          simp only [save_mapper_json]
          exact speakers_map_roundtrip hstr
        have hs2i : snap.symbol_to_id = st1.symbol_to_id := by
          rw [hsnapeq]
          simp [save_mapper_json]
        have hload : load_mapper_json cfg2 snap =
            .ok { symbols := cfg2.symbols,
                  speakers_map := st1.speakers_map,
                  items := [],
                  symbol_to_id := st1.symbol_to_id,
                  id_to_symbol := st1.id_to_symbol,
                  reverse_speaker := none } := by
          rw [load_mapper_json.eq_def, hparse]
          rw [hspeak, hs2i]
        refine ⟨{ symbols := cfg2.symbols,
                  speakers_map := st1.speakers_map,
                  items := [],
                  symbol_to_id := st1.symbol_to_id,
                  id_to_symbol := st1.id_to_symbol,
                  reverse_speaker := none }, ?_, rfl, rfl, rfl, rfl, ?_⟩
        · rw [post_init.eq_def, if_pos hl2]
          simp only [hload]
        · intro mA mB
          rw [post_init.eq_def, if_pos hl2, post_init.eq_def, if_pos hl2]
      · simp only [hsave, if_false] at hok
        injection hok with h2
        have := congrArg Prod.snd h2
        exact Option.noConfusion this

/-- The `mapper.json` content written when `demo_cfg` is constructed with
`save_mapper` on: note the stringified integer keys of `id_to_symbol`. -/
def demo_snap : MapperJson :=
  { symbol_to_id := [("a", 0), ("b", 1), ("[UNK]", 2), ("[PAD]", 3), ("[EOS]", 4), ("[BOS]", 5)],
    id_to_symbol := [("0", "a"), ("1", "b"), ("2", "[UNK]"), ("3", "[PAD]"), ("4", "[EOS]"),
      ("5", "[BOS]")],
    speakers_map := [("spk1", 0)] }

/-- Concrete instance of `claim_C5_vocabulary_roundtrip`: build from the
one-line manifest with `save_mapper` on, then reload `demo_snap`. -/
theorem claim_C5_vocabulary_roundtrip_witness :
    ∃ st2, post_init { root_dir := "/data", load_mapper := true } [] (some demo_snap)
        = .ok (st2, none) ∧
      st2.symbol_to_id = demo_state.symbol_to_id ∧
      st2.id_to_symbol = demo_state.id_to_symbol ∧
      st2.speakers_map = demo_state.speakers_map ∧
      st2.items = [] ∧
      (∀ mA mB : List String,
        post_init { root_dir := "/data", load_mapper := true } mA (some demo_snap)
          = post_init { root_dir := "/data", load_mapper := true } mB (some demo_snap)) :=
  claim_C5_vocabulary_roundtrip { demo_cfg with save_mapper := true } ["w1|a|spk1"]
    demo_state demo_snap { root_dir := "/data", load_mapper := true }
    rfl (by intro key hkey; simp [demo_cfg, dictKeys] at hkey)
    (by decide) rfl []

end BaseProcessorV2


